import Mathlib

/-!
Shallow embedding of the `freem_collection_plan` repository
(`src/craw.py` and `src/freem_downloader.py`) and proofs about it.

Conventions of the embedding:
* Python strings are Lean `String`s; helper functions on character lists
  mirror the Python string methods used by the code (`startswith`,
  `endswith`, `strip`, `rstrip('/')`, `split('/')`, `in` substring test,
  `isdigit` restricted to decimal digits).
* Stateful methods become explicit state-passing functions.
* The network is an oracle parameter: a function from URL to fetch outcome
  (crawler), or from attempt index to attempt outcome (downloader).
* Fallible code that catches exceptions is modelled by outcome constructors
  for the exceptional cases; Lean totality models the fact that the
  functions never raise past their boundary.
-/

namespace Freem

/-- Model of `RETRIES = 3` in `freem_downloader.py`. -/
def RETRIES : Nat := 3

/-- Outcome of one network attempt of `download_file` for a fixed URL:
the attempt may fail before the local file is opened (connection error,
timeout, or `raise_for_status`), fail in the middle of streaming after some
chunks were written to the opened file, or succeed with a full body. -/
inductive AttemptOutcome where
  | connFail : AttemptOutcome
  | midFail (written : List String) : AttemptOutcome
  | success (chunks : List String) : AttemptOutcome
deriving DecidableEq, Repr

/-- An attempt outcome that raises an exception (anything but success). -/
def isFailB : AttemptOutcome → Bool
  | .connFail => true
  | .midFail _ => true
  | .success _ => false

/-- Content written by streaming a chunk list to a file opened in `'wb'`
mode: the file is truncated, then each nonempty chunk is appended
(`if chunk: f.write(chunk)`). -/
def joinChunks (chunks : List String) : String :=
  chunks.foldl (fun acc c => if c = "" then acc else acc ++ c) ""

/-- Local filesystem model: an association list from path to content. -/
def lookupFs (fs : List (String × String)) (p : String) : Option String :=
  match fs with
  | [] => none
  | q :: rest => if q.1 = p then some q.2 else lookupFs rest p

/-- Writing a file: replace the content at `p`, or create the file. -/
def fsWrite (fs : List (String × String)) (p v : String) : List (String × String) :=
  match fs with
  | [] => [(p, v)]
  | q :: rest => if q.1 = p then (q.1, v) :: rest else q :: fsWrite rest p v

/-- State threaded through the downloader: the local filesystem, the number
of `time.sleep(1)` calls performed, and the number of network GET attempts
issued. -/
structure DLState where
  fs : List (String × String)
  sleeps : Nat
  requests : Nat
deriving DecidableEq, Repr

/-- The `for attempt in range(RETRIES)` loop of `download_file`.
`i` is the current attempt index, the second argument the number of
attempts left.  On success the body is streamed to `local_path` (opened in
`'wb'` mode, truncating) and `True` is returned; on a pre-open failure
nothing is written; on a mid-stream failure the partial chunks remain in
the file; in both failure cases `time.sleep(1)` runs and the loop retries.
Falling off the loop returns `False`. -/
def attemptLoop (remote : Nat → AttemptOutcome) (local_path : String) :
    Nat → Nat → DLState → Bool × DLState
  | _, 0, st => (false, st)
  | i, n + 1, st =>
    match remote i with
    | .success chunks =>
        (true, { st with fs := fsWrite st.fs local_path (joinChunks chunks),
                         requests := st.requests + 1 })
    | .connFail =>
        attemptLoop remote local_path (i + 1) n
          { st with requests := st.requests + 1, sleeps := st.sleeps + 1 }
    | .midFail written =>
        attemptLoop remote local_path (i + 1) n
          { st with fs := fsWrite st.fs local_path (joinChunks written),
                    requests := st.requests + 1, sleeps := st.sleeps + 1 }

/-- Model of `download_file(session, url, local_path)`: if the file already
exists it returns `True` immediately, touching neither the network nor the
file; otherwise it runs up to `RETRIES` attempts. -/
def download_file (remote : Nat → AttemptOutcome) (local_path : String)
    (st : DLState) : Bool × DLState :=
  if (lookupFs st.fs local_path).isSome then (true, st)
  else attemptLoop remote local_path 0 RETRIES st

end Freem

namespace Fixtures

/-- A concrete `urljoin` stand-in used only to instantiate witnesses. -/
def uj0 : String → String → String := fun b h => b ++ h

/-- A remote that always raises before opening the file. -/
def remoteAllConn : Nat → Freem.AttemptOutcome := fun _ => Freem.AttemptOutcome.connFail

/-- A remote whose first attempt dies mid-stream after writing `"ab"`,
and whose later attempts fail before opening the file. -/
def remoteMid : Nat → Freem.AttemptOutcome := fun i =>
  if i = 0 then Freem.AttemptOutcome.midFail ["ab"] else Freem.AttemptOutcome.connFail

/-- A remote that fails twice and succeeds on the third attempt. -/
def remoteThird : Nat → Freem.AttemptOutcome := fun i =>
  if i = 2 then Freem.AttemptOutcome.success ["he", "llo"]
  else Freem.AttemptOutcome.connFail

/-- An empty local filesystem state. -/
def dlInit : Freem.DLState := ⟨[], 0, 0⟩

/-- A local filesystem state already holding the file `"f"`. -/
def dlHasF : Freem.DLState := ⟨[("f", "x")], 0, 0⟩

end Fixtures

namespace Craw

/-- Does `pat` occur at the start of `s`?  (list version of Python
`startswith`). -/
def listLeads : List Char → List Char → Bool
  | [], _ => true
  | _ :: _, [] => false
  | a :: as, b :: bs => (a = b) && listLeads as bs

/-- Does `pat` occur anywhere inside `s`?  (Python `pat in s`). -/
def listWithin (pat : List Char) : List Char → Bool
  | [] => pat.isEmpty
  | b :: bs => listLeads pat (b :: bs) || listWithin pat bs

/-- Python `s.startswith(pat)`. -/
def strLeads (pat s : String) : Bool := listLeads pat.data s.data

/-- Python `s.endswith(pat)`. -/
def strTrails (pat s : String) : Bool := listLeads pat.data.reverse s.data.reverse

/-- Python `pat in s` (substring containment). -/
def strContains (s pat : String) : Bool := listWithin pat.data s.data

/-- Whitespace characters removed by Python `str.strip()`. -/
def isPySpace (c : Char) : Bool :=
  c = ' ' || c = '\t' || c = '\n' || c = '\x0d' || c = '\x0b' || c = '\x0c'

/-- Python `s.strip()`. -/
def pyStrip (s : String) : String :=
  String.mk (((s.data.dropWhile isPySpace).reverse.dropWhile isPySpace).reverse)

/-- Python `s.rstrip('/')`: drop every trailing `'/'`. -/
def rstripSlash (s : String) : String :=
  String.mk ((s.data.reverse.dropWhile (fun c => c = '/')).reverse)

/-- Python `s.split('/')` on character lists. -/
def splitSlash : List Char → List (List Char)
  | [] => [[]]
  | c :: rest =>
    let r := splitSlash rest
    if c = '/' then [] :: r
    else
      match r with
      | [] => [[c]]
      | h :: t => (c :: h) :: t

/-- `folder_url.rstrip('/').split('/')[-1]` in `crawl_folder`. -/
def folderIdOf (folder_url : String) : String :=
  String.mk ((splitSlash (rstripSlash folder_url).data).getLastD [])

/-- Python `s.isdigit()` for the decimal-digit strings this crawler deals
with: nonempty and every character a decimal digit. -/
def pyIsdigit (s : String) : Bool :=
  !s.data.isEmpty && s.data.all Char.isDigit

/-- Characters the regex `[\\/*?:"<>|]` of `clean_name` replaces. -/
def isIllegalChar (c : Char) : Bool :=
  c = '\\' || c = '/' || c = '*' || c = '?' || c = ':' || c = '"' ||
  c = '<' || c = '>' || c = '|'

/-- `WebsiteCrawler.clean_name`: replace filesystem-illegal characters with
an underscore. -/
def clean_name (name : String) : String :=
  String.mk (name.data.map (fun c => if isIllegalChar c then '_' else c))

/-- `WebsiteCrawler.is_valid_folder`: the name must be all digits. -/
def is_valid_folder (folder_name : String) : Bool := pyIsdigit folder_name

/-- The sort-parameter test of `is_valid_file`:
`any(param in href for param in ['C=N', 'C=M', 'C=S', 'C=D'])`. -/
def hasSortMarker (href : String) : Bool :=
  strContains href "C=N" || strContains href "C=M" ||
  strContains href "C=S" || strContains href "C=D"

/-- `WebsiteCrawler.is_valid_file`: reject sort links, directory links,
the special links `../` and `./`, and sort-parameter links. -/
def is_valid_file (href : String) : Bool :=
  if strLeads "?" href || strTrails "/" href then false
  else if href = "../" || href = "./" then false
  else if hasSortMarker href then false
  else true

/-- One `<a>` element of a listing page as the crawler reads it:
`link.get('href')` (absent attribute is `none`), and the optional texts of
the following `<td>` sibling and of that cell's own following `<td>`
(`find_next_sibling('td')`), already `get_text(strip=True)`-cleaned. -/
structure Link where
  href : Option String
  sizeCell : Option String
  dateCell : Option String
deriving DecidableEq, Repr

/-- An item produced by `parse_directory`: the dictionaries with
`"type": "folder"` and `"type": "file"`. -/
inductive Item where
  | folder (name url parent : String) : Item
  | file (name url size date parent : String) : Item
deriving DecidableEq, Repr

/-- The per-link loop of `parse_directory` (lines 77-118 of `craw.py`),
parameterised by `urljoin`.  Links without an href or with a falsy href
are skipped; the href is stripped; an href ending in `/` is a folder
candidate kept only if its `rstrip('/')` name is all digits; otherwise
`is_valid_file` decides whether a file item is appended, with size and
date read best-effort from the sibling cells. -/
def parse_items (uj : String → String → String) (url : String) :
    List Link → List Item
  | [] => []
  | l :: rest =>
    match l.href with
    | none => parse_items uj url rest
    | some h0 =>
      if h0 = "" then parse_items uj url rest
      else if strTrails "/" (pyStrip h0) then
        (if is_valid_folder (rstripSlash (pyStrip h0)) then
          Item.folder (rstripSlash (pyStrip h0)) (uj url (pyStrip h0)) url ::
            parse_items uj url rest
        else parse_items uj url rest)
      else if is_valid_file (pyStrip h0) then
        Item.file (clean_name (pyStrip h0)) (uj url (pyStrip h0))
          (match l.sizeCell with | some s => s | none => "")
          (match l.sizeCell with
           | some _ => (match l.dateCell with | some d => d | none => "")
           | none => "") url :: parse_items uj url rest
      else parse_items uj url rest

/-- One file record appended to `file_structure[folder_id]["files"]`. -/
structure FileRecord where
  original_name : String
  url : String
  size : String
  date : String
deriving DecidableEq, Repr

/-- The value stored at `file_structure[folder_id]`. -/
structure FolderRecord where
  url : String
  files : List FileRecord
  subfolders : List String
deriving DecidableEq, Repr

/-- The crawler's mutable state: `file_structure` (a dict, modelled as an
association list in insertion order), `visited_folders`, and a log of the
URLs for which a network fetch was attempted (implicit in the code: one
`session.get` per non-early-return of `parse_directory`). -/
structure CrawlState where
  file_structure : List (String × FolderRecord)
  visited_folders : List String
  fetch_log : List String
deriving DecidableEq, Repr

/-- The crawler state at the start of a run. -/
def initState : CrawlState := ⟨[], [], []⟩

/-- Lookup in `file_structure` (`folder_id in self.file_structure`). -/
def fsLookup (fid : String) : List (String × FolderRecord) → Option FolderRecord
  | [] => none
  | p :: rest => if p.1 = fid then some p.2 else fsLookup fid rest

/-- Mutation of the record stored under `fid` (Python dicts hold one entry
per key, so mapping over all pairs models in-place mutation). -/
def fsUpdate (fs : List (String × FolderRecord)) (fid : String)
    (f : FolderRecord → FolderRecord) : List (String × FolderRecord) :=
  fs.map (fun p => if p.1 = fid then (p.1, f p.2) else p)

/-- What one `session.get(url)` plus parsing can do: produce a page of
links, or raise some exception (network error, timeout, `raise_for_status`
on an error status, decode error).  A deterministic oracle per URL models
an unchanged remote during one run. -/
inductive FetchOutcome where
  | ok (links : List Link) : FetchOutcome
  | exn : FetchOutcome

/-- `WebsiteCrawler.parse_directory(url, depth)`.  Returns the parsed
items, the new state, and whether a network fetch was attempted.  The
depth guard and the visited-set guard return early without fetching; the
URL is added to `visited_folders` before the fetch; the whole fetch-parse
block is wrapped in `except Exception`, which yields `[]`. -/
def parse_directory (net : String → FetchOutcome) (uj : String → String → String)
    (max_depth : Nat) (url : String) (depth : Nat) (st : CrawlState) :
    List Item × CrawlState × Bool :=
  if max_depth < depth then ([], st, false)
  else if url ∈ st.visited_folders then ([], st, false)
  else
    match net url with
    | .exn =>
        ([], { st with visited_folders := url :: st.visited_folders,
                       fetch_log := url :: st.fetch_log }, true)
    | .ok links =>
        (parse_items uj url links,
         { st with visited_folders := url :: st.visited_folders,
                   fetch_log := url :: st.fetch_log }, true)

mutual

/-- `WebsiteCrawler.crawl_folder(folder_url, depth)`: depth guard, the
digit test on the trailing URL segment, the already-recorded test, then
`parse_directory`; an empty item list records nothing; otherwise a fresh
`FolderRecord` is created and the items are processed in order. -/
def crawl_folder (net : String → FetchOutcome) (uj : String → String → String)
    (max_depth : Nat) (folder_url : String) (depth : Nat) (st : CrawlState) :
    CrawlState :=
  if max_depth < depth then st
  else if !pyIsdigit (folderIdOf folder_url) then st
  else if (fsLookup (folderIdOf folder_url) st.file_structure).isSome then st
  else
    match parse_directory net uj max_depth folder_url depth st with
    | (items, st1, _) =>
      if items.isEmpty then st1
      else
        crawl_items net uj max_depth (folderIdOf folder_url) depth items
          { st1 with file_structure := st1.file_structure ++
              [(folderIdOf folder_url, ⟨folder_url, [], []⟩)] }
termination_by (max_depth + 2 - depth, 0)

/-- The `for item in items` loop at the end of `crawl_folder`: a folder
item appends its name to `subfolders` and recursively crawls it at
`depth + 1`; a file item appends a `FileRecord` to `files`. -/
def crawl_items (net : String → FetchOutcome) (uj : String → String → String)
    (max_depth : Nat) (folder_id : String) (depth : Nat) (items : List Item)
    (st : CrawlState) : CrawlState :=
  match items with
  | [] => st
  | Item.folder name url' _ :: rest =>
      crawl_items net uj max_depth folder_id depth rest
        (crawl_folder net uj max_depth url' (depth + 1)
          { st with file_structure := (fsUpdate st.file_structure folder_id
              (fun r => { r with subfolders := r.subfolders ++ [name] })) })
  | Item.file name url' size date _ :: rest =>
      crawl_items net uj max_depth folder_id depth rest
        { st with file_structure := (fsUpdate st.file_structure folder_id
            (fun r => { r with files := r.files ++ [⟨name, url', size, date⟩] })) }
termination_by (max_depth + 1 - depth, items.length)

end

/-- The worker-submission loop of `WebsiteCrawler.crawl`, generalised to
any list of scheduled `(folder_url, depth)` tasks processed in order. -/
def runCrawl (net : String → FetchOutcome) (uj : String → String → String)
    (max_depth : Nat) (roots : List (String × Nat)) (st : CrawlState) :
    CrawlState :=
  roots.foldl (fun s r => crawl_folder net uj max_depth r.1 r.2 s) st

/-- One row of the rename-plan spreadsheet built by `generate_excel`
(column names transliterated). -/
structure ExcelRow where
  folder_id : String
  original_name : String
  new_name : String
  size : String
  date : String
  file_url : String
  folder_url : String
deriving DecidableEq, Repr

/-- The rows contributed by one folder in `generate_excel`'s inner loop. -/
def excelRowsOfFolder (fid : String) (fd : FolderRecord) : List ExcelRow :=
  fd.files.map (fun fi => ⟨fid, fi.original_name, "", fi.size, fi.date, fi.url, fd.url⟩)

/-- The data-collection loop of `WebsiteCrawler.generate_excel`
(lines 196-210 of `craw.py`): folders with an empty `files` list are
skipped; each file of the remaining folders yields one row. -/
def generate_excel_data : List (String × FolderRecord) → List ExcelRow
  | [] => []
  | p :: rest =>
      if p.2.files.isEmpty then generate_excel_data rest
      else excelRowsOfFolder p.1 p.2 ++ generate_excel_data rest

/-- `WebsiteCrawler.generate_excel` as a state transformer: it reads
`file_structure`, builds fresh row data, and returns the unchanged crawler
state together with the rows (the DataFrame). -/
def generate_excel (st : CrawlState) : CrawlState × List ExcelRow :=
  (st, generate_excel_data st.file_structure)

/-- The dict comprehension of `WebsiteCrawler.save_to_json`: keep exactly
the entries whose `files` list is truthy (nonempty). -/
def save_to_json_filtered (fs : List (String × FolderRecord)) :
    List (String × FolderRecord) :=
  fs.filter (fun p => !p.2.files.isEmpty)

/-- `WebsiteCrawler.save_to_json` as a state transformer: it builds the
filtered structure, writes it out, and returns the unchanged crawler state
together with the persisted structure. -/
def save_to_json (st : CrawlState) : CrawlState × List (String × FolderRecord) :=
  (st, save_to_json_filtered st.file_structure)

/-- Number of times `u` occurs in a list of URLs (used for the at-most-one
fetch invariant). -/
def countStr (u : String) : List String → Nat
  | [] => 0
  | v :: rest => (if v = u then 1 else 0) + countStr u rest

/-- Invariant of the crawl run: every URL was fetched at most once, and
every fetched URL is recorded in `visited_folders`. -/
def FetchInv (st : CrawlState) : Prop :=
  (∀ u, countStr u st.fetch_log ≤ 1) ∧
  (∀ u, u ∈ st.fetch_log → u ∈ st.visited_folders)

end Craw

namespace Freem

open Craw (Link)

/-- The inline link filter of `crawl_from_number` (lines 112-113 of
`freem_downloader.py`): keep an href iff it is present, truthy, does not
start with `../` or `./`, and does not end with `/`. -/
def dl_keep (href : String) : Bool :=
  href ≠ "" && !Craw.strLeads "../" href && !Craw.strLeads "./" href &&
  !Craw.strTrails "/" href

/-- The file-collection loop of `crawl_from_number` (lines 110-114),
parameterised by `urljoin`: every kept href is resolved against the
directory URL and appended. -/
def gatherFiles (uj : String → String → String) (dir_url : String) :
    List Link → List String
  | [] => []
  | a :: rest =>
    match a.href with
    | none => gatherFiles uj dir_url rest
    | some href =>
        if dl_keep href then uj dir_url href :: gatherFiles uj dir_url rest
        else gatherFiles uj dir_url rest

/-- What the environment does during one iteration of the
`crawl_from_number` loop: a `KeyboardInterrupt` raised anywhere in the
body, any other exception raised anywhere in the body, or a normal pass in
which the `HEAD` probe returns `code` and the subsequent `GET` (when
reached) yields a page of links. -/
inductive IterEvent where
  | interrupt : IterEvent
  | raised : IterEvent
  | page (code : Nat) (links : List Link) : IterEvent
deriving DecidableEq, Repr

/-- `urljoin(base_url, f"{current_num}/")`. -/
def dirUrl (uj : String → String → String) (base_url : String) (n : Nat) :
    String :=
  uj base_url (toString n ++ "/")

/-- One iteration of the `while True` loop of `crawl_from_number`, acting
on `current_num`.  `none` means the loop breaks; `some m` means the loop
continues with `current_num = m`.  A non-200 `HEAD`, an empty file list,
a successful download pass, and any non-interrupt exception all advance to
`current_num + 1`; only `KeyboardInterrupt` breaks. -/
def crawl_iter (uj : String → String → String) (base_url : String)
    (ev : IterEvent) (n : Nat) : Option Nat :=
  match ev with
  | .interrupt => none
  | .raised => some (n + 1)
  | .page code links =>
      if code ≠ 200 then some (n + 1)
      else if (gatherFiles uj (dirUrl uj base_url n) links).isEmpty then
        some (n + 1)
      else some (n + 1)

/-- Running `k` iterations of the `crawl_from_number` loop from
`current_num = start`, the environment of iteration `i` given by `evs i`;
`none` means the loop broke within those iterations. -/
def crawl_run (uj : String → String → String) (base_url : String)
    (evs : Nat → IterEvent) (start : Nat) : Nat → Option Nat
  | 0 => some start
  | k + 1 =>
    match crawl_run uj base_url evs start k with
    | none => none
    | some n => crawl_iter uj base_url (evs k) n

end Freem

namespace Fixtures

/-- A fetch oracle that always raises. -/
def netExn : String → Craw.FetchOutcome := fun _ => Craw.FetchOutcome.exn

/-- A crawler state in which the URL `"u"` is already visited. -/
def stVisited : Craw.CrawlState := ⟨[], ["u"], []⟩

/-- One listing page: the numeric folder `42/` and a sort link. -/
def page42 : List Craw.Link := [⟨some "42/", none, none⟩, ⟨some "?C=N;O=A", none, none⟩]

/-- A fetch oracle serving `page42` for every URL. -/
def netPage42 : String → Craw.FetchOutcome := fun _ => Craw.FetchOutcome.ok page42

/-- An inventory with one folder holding a file and one empty folder. -/
def invC9 : List (String × Craw.FolderRecord) :=
  [("1", ⟨"u1", [⟨"a", "ua", "3k", "2020"⟩], []⟩), ("2", ⟨"u2", [], []⟩)]

/-- A crawler state carrying `invC9`. -/
def stC9 : Craw.CrawlState := ⟨invC9, [], []⟩

end Fixtures

section FreemLemmas

open Freem

/-- Looking up a freshly written path returns the written content. -/
theorem lookupFs_fsWrite_self (fs : List (String × String)) (p v : String) :
    lookupFs (fsWrite fs p v) p = some v := by
  induction fs with
  | nil => simp [fsWrite, lookupFs]
  | cons q rest ih =>
      by_cases h : q.1 = p
      · simp [fsWrite, lookupFs, h]
      · simp [fsWrite, lookupFs, h, ih]

/-- If every attempt the loop can reach fails, the loop returns `false`,
makes one request per attempt, and sleeps once per attempt. -/
theorem attemptLoop_allFail (remote : Nat → AttemptOutcome) (p : String) :
    ∀ n i st, (∀ j, j < n → isFailB (remote (i + j)) = true) →
      (attemptLoop remote p i n st).1 = false ∧
      (attemptLoop remote p i n st).2.requests = st.requests + n ∧
      (attemptLoop remote p i n st).2.sleeps = st.sleeps + n := by
  intro n
  induction n with
  | zero => intro i st _; simp [attemptLoop]
  | succ m ih =>
      intro i st hf
      have h0 := hf 0 (Nat.succ_pos m)
      have hshift : ∀ j, j < m → isFailB (remote (i + 1 + j)) = true := by
        intro j hj
        have := hf (j + 1) (by omega)
        have harg : i + (j + 1) = i + 1 + j := by omega
        rwa [harg] at this
      rw [Nat.add_zero] at h0
      cases hr : remote i with
      | success chunks => rw [hr] at h0; simp [isFailB] at h0
      | connFail =>
          obtain ⟨ha, hb, hc⟩ := ih (i + 1)
            { st with requests := st.requests + 1, sleeps := st.sleeps + 1 } hshift
          dsimp only at hb hc
          simp only [attemptLoop, hr]
          exact ⟨ha, by omega, by omega⟩
      | midFail written =>
          obtain ⟨ha, hb, hc⟩ := ih (i + 1)
            { st with fs := fsWrite st.fs p (joinChunks written),
                      requests := st.requests + 1, sleeps := st.sleeps + 1 } hshift
          dsimp only at hb hc
          simp only [attemptLoop, hr]
          exact ⟨ha, by omega, by omega⟩

/-- If every attempt the loop can reach fails before the file is opened,
the filesystem is untouched. -/
theorem attemptLoop_connFail_fs (remote : Nat → AttemptOutcome) (p : String) :
    ∀ n i st, (∀ j, j < n → remote (i + j) = AttemptOutcome.connFail) →
      (attemptLoop remote p i n st).2.fs = st.fs := by
  intro n
  induction n with
  | zero => intro i st _; simp [attemptLoop]
  | succ m ih =>
      intro i st hc
      have h0 : remote i = AttemptOutcome.connFail := by
        have := hc 0 (Nat.succ_pos m); simpa using this
      have hshift : ∀ j, j < m → remote (i + 1 + j) = AttemptOutcome.connFail := by
        intro j hj
        have := hc (j + 1) (by omega)
        have harg : i + (j + 1) = i + 1 + j := by omega
        rwa [harg] at this
      have := ih (i + 1)
        { st with requests := st.requests + 1, sleeps := st.sleeps + 1 } hshift
      simp only [attemptLoop, h0]
      exact this

/-- A failing attempt hands the loop on to the next attempt in some
intermediate state. -/
theorem attemptLoop_fail_step (remote : Nat → AttemptOutcome) (p : String)
    (i n : Nat) (st : DLState) (h : isFailB (remote i) = true) :
    ∃ st', attemptLoop remote p i (n + 1) st = attemptLoop remote p (i + 1) n st' := by
  cases hr : remote i with
  | success c => rw [hr] at h; simp [isFailB] at h
  | connFail =>
      exact ⟨{ st with requests := st.requests + 1, sleeps := st.sleeps + 1 },
        by simp [attemptLoop, hr]⟩
  | midFail w =>
      exact ⟨{ st with fs := fsWrite st.fs p (joinChunks w),
                       requests := st.requests + 1, sleeps := st.sleeps + 1 },
        by simp [attemptLoop, hr]⟩

/-- A successful attempt writes the whole body and returns `true`. -/
theorem attemptLoop_success_step (remote : Nat → AttemptOutcome) (p : String)
    (i n : Nat) (st : DLState) (chunks : List String)
    (h : remote i = AttemptOutcome.success chunks) :
    attemptLoop remote p i (n + 1) st =
      (true, { st with fs := fsWrite st.fs p (joinChunks chunks),
                       requests := st.requests + 1 }) := by
  simp [attemptLoop, h]

/-- When no file pre-exists, `download_file` is the attempt loop. -/
theorem download_file_no_file (remote : Nat → AttemptOutcome) (p : String)
    (st : DLState) (h0 : lookupFs st.fs p = none) :
    download_file remote p st = attemptLoop remote p 0 3 st := by
  simp [download_file, h0, RETRIES]

end FreemLemmas

/-- C5: for every url and localPath, if a file already exists at localPath
then `download_file` returns `True` immediately, performs zero network
requests, and leaves the existing file's content unchanged — including
when the existing file is an incomplete leftover (no content inspection is
performed). -/
theorem c5_preexisting_file_skipped (remote : Nat → Freem.AttemptOutcome)
    (p : String) (st : Freem.DLState)
    (h : (Freem.lookupFs st.fs p).isSome = true) :
    Freem.download_file remote p st = (true, st) ∧
    (Freem.download_file remote p st).2.requests = st.requests ∧
    Freem.lookupFs (Freem.download_file remote p st).2.fs p =
      Freem.lookupFs st.fs p := by
  refine ⟨?_, ?_, ?_⟩ <;> simp [Freem.download_file, h]

/-- C5 witness: a pre-existing file `"f"` with stale content is skipped. -/
theorem c5_preexisting_file_skipped_witness :
    Freem.download_file Fixtures.remoteAllConn "f" Fixtures.dlHasF =
      (true, Fixtures.dlHasF) :=
  (c5_preexisting_file_skipped Fixtures.remoteAllConn "f" Fixtures.dlHasF
    (by decide)).1

/-- C2 counterexample: with no pre-existing file and a remote whose first
attempt dies mid-stream after writing `"ab"` and whose remaining attempts
fail to connect, `download_file` returns `False` but a partial file with
content `"ab"` is left at the destination — refuting "leaves no partial
file at localPath". -/
theorem c2_partial_file_counterexample :
    Freem.lookupFs Fixtures.dlInit.fs "f" = none ∧
    (Freem.download_file Fixtures.remoteMid "f" Fixtures.dlInit).1 = false ∧
    Freem.lookupFs
      (Freem.download_file Fixtures.remoteMid "f" Fixtures.dlInit).2.fs "f" =
      some "ab" := by
  refine ⟨by decide, by decide, by decide⟩

/-- C2 (amended): if no file pre-exists at localPath and every attempt
fails, `download_file` with `RETRIES = 3` makes exactly 3 attempts with a
1-second backoff after each failed attempt, and returns `False` rather
than raising; when every failure happens before the body stream is opened
(connection/status failure) the filesystem is untouched, so no partial
file is left — a failure during body streaming instead leaves that
attempt's partial bytes at localPath (see the counterexample). -/
theorem c2_exhausted_retries_amended (remote : Nat → Freem.AttemptOutcome)
    (p : String) (st : Freem.DLState)
    (h0 : Freem.lookupFs st.fs p = none)
    (hf : ∀ i, i < Freem.RETRIES → Freem.isFailB (remote i) = true) :
    (Freem.download_file remote p st).1 = false ∧
    (Freem.download_file remote p st).2.requests = st.requests + Freem.RETRIES ∧
    (Freem.download_file remote p st).2.sleeps = st.sleeps + Freem.RETRIES ∧
    ((∀ i, i < Freem.RETRIES → remote i = Freem.AttemptOutcome.connFail) →
      (Freem.download_file remote p st).2.fs = st.fs) := by
  have hd := download_file_no_file remote p st h0
  obtain ⟨ha, hb, hc⟩ := attemptLoop_allFail remote p 3 0 st
    (by intro j hj; simpa using hf j (by simpa [Freem.RETRIES] using hj))
  refine ⟨?_, ?_, ?_, ?_⟩
  · rw [hd]; exact ha
  · rw [hd]; simpa [Freem.RETRIES] using hb
  · rw [hd]; simpa [Freem.RETRIES] using hc
  · intro hcf
    rw [hd]
    exact attemptLoop_connFail_fs remote p 3 0 st
      (by intro j hj; simpa using hcf j (by simpa [Freem.RETRIES] using hj))

/-- C2 witness: an always-connection-failing remote against an empty
filesystem gives three attempts, three sleeps, `False`, and no file. -/
theorem c2_exhausted_retries_amended_witness :
    (Freem.download_file Fixtures.remoteAllConn "f" Fixtures.dlInit).1 = false ∧
    (Freem.download_file Fixtures.remoteAllConn "f" Fixtures.dlInit).2.requests = 3 ∧
    (Freem.download_file Fixtures.remoteAllConn "f" Fixtures.dlInit).2.fs =
      Fixtures.dlInit.fs := by
  have h := c2_exhausted_retries_amended Fixtures.remoteAllConn "f" Fixtures.dlInit
    (by decide) (fun i _ => rfl)
  exact ⟨h.1, h.2.1, h.2.2.2 (fun i _ => rfl)⟩

/-- C6: if no file pre-exists at localPath, the first two attempts fail,
and the third succeeds, then `download_file` with `RETRIES = 3` returns
`True` and the file at localPath contains exactly the full body of the
successful attempt (each retry reopens the file in `'wb'` mode, truncating
any partial content from failed attempts). -/
theorem c6_success_on_third_attempt (remote : Nat → Freem.AttemptOutcome)
    (p : String) (st : Freem.DLState) (chunks : List String)
    (h0 : Freem.lookupFs st.fs p = none)
    (h1 : Freem.isFailB (remote 0) = true)
    (h2 : Freem.isFailB (remote 1) = true)
    (h3 : remote 2 = Freem.AttemptOutcome.success chunks) :
    (Freem.download_file remote p st).1 = true ∧
    Freem.lookupFs (Freem.download_file remote p st).2.fs p =
      some (Freem.joinChunks chunks) := by
  have hd := download_file_no_file remote p st h0
  obtain ⟨s1, e1⟩ := attemptLoop_fail_step remote p 0 2 st h1
  obtain ⟨s2, e2⟩ := attemptLoop_fail_step remote p 1 1 s1 h2
  have e3 := attemptLoop_success_step remote p 2 0 s2 chunks h3
  have e1' : Freem.attemptLoop remote p 0 3 st =
      Freem.attemptLoop remote p 1 2 s1 := by simpa using e1
  have e2' : Freem.attemptLoop remote p 1 2 s1 =
      Freem.attemptLoop remote p 2 1 s2 := by simpa using e2
  have e3' : Freem.attemptLoop remote p 2 1 s2 =
      (true, { s2 with fs := Freem.fsWrite s2.fs p (Freem.joinChunks chunks),
                       requests := s2.requests + 1 }) := by simpa using e3
  rw [hd, e1', e2', e3']
  exact ⟨rfl, lookupFs_fsWrite_self _ _ _⟩

/-- C6 witness: a remote failing twice then delivering `["he", "llo"]`
leaves exactly `"hello"` in the file and reports success. -/
theorem c6_success_on_third_attempt_witness :
    (Freem.download_file Fixtures.remoteThird "f" Fixtures.dlInit).1 = true ∧
    Freem.lookupFs
      (Freem.download_file Fixtures.remoteThird "f" Fixtures.dlInit).2.fs "f" =
      some (Freem.joinChunks ["he", "llo"]) :=
  c6_success_on_third_attempt Fixtures.remoteThird "f" Fixtures.dlInit
    ["he", "llo"] (by decide) (by decide) (by decide) (by decide)

/-- C3 counterexample: the href `?C=N;O=A` contains the sort marker
`C=N`, yet the download path's inline filter in `crawl_from_number` keeps
it, so the link IS classified as a file entry there and its resolved URL
lands in the download list — refuting "never classified as a file entry
… by the download path's inline link filter". -/
theorem c3_sort_link_counterexample :
    Craw.strContains "?C=N;O=A" "C=N" = true ∧
    Freem.dl_keep "?C=N;O=A" = true ∧
    Freem.gatherFiles Fixtures.uj0 "http://x/1/"
      [⟨some "?C=N;O=A", none, none⟩] = ["http://x/1/?C=N;O=A"] := by
  refine ⟨by decide, by decide, by decide⟩

/-- C3 (amended): the crawl path's `is_valid_file` never classifies a
link containing a sort-toggle marker as a file entry; the download path's
inline filter in `crawl_from_number`, however, only excludes empty hrefs,
`../`/`./` prefixes and trailing slashes, and does keep the sort-toggle
link `?C=N;O=A` as a file entry. -/
theorem c3_sort_links_amended :
    (∀ href, Craw.hasSortMarker href = true → Craw.is_valid_file href = false) ∧
    Freem.dl_keep "?C=N;O=A" = true := by
  constructor
  · intro href h
    simp [Craw.is_valid_file, h]
  · decide

/-- C3 witness: the amended crawl-path exclusion applied to `?C=N;O=A`. -/
theorem c3_sort_links_amended_witness :
    Craw.is_valid_file "?C=N;O=A" = false ∧ Freem.dl_keep "?C=N;O=A" = true :=
  ⟨c3_sort_links_amended.1 "?C=N;O=A" (by decide), c3_sort_links_amended.2⟩

/-- C4: `crawl_from_number` has no automatic termination condition: one
loop iteration returns `none` (break) exactly on a `KeyboardInterrupt`;
every other iteration outcome — non-200 HEAD, empty file list, successful
download pass, or any other exception — continues with `current_num + 1`;
consequently a run whose first `k` iterations see no interrupt is still
running at `start + k`. -/
theorem c4_only_interrupt_stops (uj : String → String → String)
    (base_url : String) :
    (∀ ev n, Freem.crawl_iter uj base_url ev n = none ↔
      ev = Freem.IterEvent.interrupt) ∧
    (∀ ev n, ev ≠ Freem.IterEvent.interrupt →
      Freem.crawl_iter uj base_url ev n = some (n + 1)) ∧
    (∀ evs start k, (∀ i, i < k → evs i ≠ Freem.IterEvent.interrupt) →
      Freem.crawl_run uj base_url evs start k = some (start + k)) := by
  have hstep : ∀ ev n, ev ≠ Freem.IterEvent.interrupt →
      Freem.crawl_iter uj base_url ev n = some (n + 1) := by
    intro ev n hne
    cases ev with
    | interrupt => exact absurd rfl hne
    | raised => rfl
    | page code links => simp [Freem.crawl_iter]
  refine ⟨?_, hstep, ?_⟩
  · intro ev n
    constructor
    · intro hnone
      by_contra hne
      rw [hstep ev n hne] at hnone
      exact Option.noConfusion hnone
    · intro he; subst he; rfl
  · intro evs start k
    induction k with
    | zero => intro _; rfl
    | succ m ih =>
        intro hk
        have hrun : Freem.crawl_run uj base_url evs start m = some (start + m) :=
          ih (fun i hi => hk i (by omega))
        show Freem.crawl_run uj base_url evs start (m + 1) = _
        rw [Freem.crawl_run, hrun]
        exact hstep (evs m) (start + m) (hk m (by omega))

/-- C4 witness: two non-success probes (a 404 HEAD) advance a run started
at 7 to 9 without stopping. -/
theorem c4_only_interrupt_stops_witness :
    Freem.crawl_run Fixtures.uj0 "b"
      (fun _ => Freem.IterEvent.page 404 []) 7 2 = some 9 :=
  (c4_only_interrupt_stops Fixtures.uj0 "b").2.2
    (fun _ => Freem.IterEvent.page 404 []) 7 2
    (fun i _ => by intro h; exact Freem.IterEvent.noConfusion h)

/-- Every row produced by the `generate_excel` data loop comes from a
folder whose `files` list is nonempty. -/
theorem generate_excel_data_mem (fs : List (String × Craw.FolderRecord))
    (r : Craw.ExcelRow) (h : r ∈ Craw.generate_excel_data fs) :
    ∃ fid fd, (fid, fd) ∈ fs ∧ fd.files ≠ [] ∧ r.folder_id = fid := by
  induction fs with
  | nil => simp [Craw.generate_excel_data] at h
  | cons p rest ih =>
      rw [Craw.generate_excel_data] at h
      split at h
      · obtain ⟨fid, fd, hmem, hne, hid⟩ := ih h
        exact ⟨fid, fd, List.mem_cons_of_mem _ hmem, hne, hid⟩
      · rename_i hne
        rcases List.mem_append.mp h with hrow | hrest
        · obtain ⟨fi, _, heq⟩ := List.mem_map.mp hrow
          refine ⟨p.1, p.2, List.mem_cons_self _ _, ?_, ?_⟩
          · intro hd
            exact hne (by simp [hd])
          · rw [← heq]
        · obtain ⟨fid, fd, hmem, hne2, hid⟩ := ih hrest
          exact ⟨fid, fd, List.mem_cons_of_mem _ hmem, hne2, hid⟩

/-- C8: every folder entry produced by `parse_directory`'s link loop has a
name that is a nonempty string of decimal digits (which excludes `../`,
sort-order links, and non-numeric subdirectories). -/
theorem c8_folder_names_all_digits (uj : String → String → String)
    (url : String) (links : List Craw.Link) (name furl parent : String)
    (h : Craw.Item.folder name furl parent ∈ Craw.parse_items uj url links) :
    Craw.pyIsdigit name = true ∧ name ≠ "" ∧
    name.data.all Char.isDigit = true := by
  induction links with
  | nil => simp [Craw.parse_items] at h
  | cons l rest ih =>
      have hpd : Craw.pyIsdigit name = true := by
        rw [Craw.parse_items] at h
        split at h
        · exact (ih h).1
        · split at h
          · exact (ih h).1
          · split at h
            · split at h
              · rcases List.mem_cons.mp h with heq | hrest
                · rename_i hvalid
                  injection heq with hname _ _
                  rw [hname]
                  exact hvalid
                · exact (ih hrest).1
              · exact (ih h).1
            · split at h
              · rcases List.mem_cons.mp h with heq | hrest
                · exact Craw.Item.noConfusion heq
                · exact (ih hrest).1
              · exact (ih h).1
      refine ⟨hpd, ?_, ?_⟩
      · intro hc
        rw [hc] at hpd
        exact absurd hpd (by decide)
      · have := hpd
        rw [Craw.pyIsdigit, Bool.and_eq_true] at this
        exact this.2

/-- C8 witness: a page with links `42/` and `?C=N;O=A` yields the folder
entry named `42`, which is nonempty and all digits. -/
theorem c8_folder_names_all_digits_witness :
    Craw.pyIsdigit "42" = true ∧ "42" ≠ "" ∧
    "42".data.all Char.isDigit = true :=
  c8_folder_names_all_digits Fixtures.uj0 "u" Fixtures.page42 "42"
    (Fixtures.uj0 "u" "42/") "u" (by decide)

/-- C9: the persisted inventory of `save_to_json` contains exactly the
entries of `file_structure` with a nonempty `files` list, and every Excel
row of `generate_excel` comes from a folder with a nonempty `files` list
(folders with zero files yield no rows). -/
theorem c9_empty_folders_omitted (st : Craw.CrawlState) :
    (∀ fid fd, (fid, fd) ∈ (Craw.save_to_json st).2 ↔
      ((fid, fd) ∈ st.file_structure ∧ fd.files ≠ [])) ∧
    (∀ r, r ∈ (Craw.generate_excel st).2 →
      ∃ fid fd, (fid, fd) ∈ st.file_structure ∧ fd.files ≠ [] ∧
        r.folder_id = fid) := by
  constructor
  · intro fid fd
    simp [Craw.save_to_json, Craw.save_to_json_filtered, List.mem_filter]
  · intro r hr
    exact generate_excel_data_mem st.file_structure r hr

/-- C9 witness: in an inventory with a one-file folder `1` and an empty
folder `2`, the persisted form keeps `1` and drops `2`. -/
theorem c9_empty_folders_omitted_witness :
    ("1", (⟨"u1", [⟨"a", "ua", "3k", "2020"⟩], []⟩ : Craw.FolderRecord)) ∈
      (Craw.save_to_json Fixtures.stC9).2 ∧
    ¬ (("2", (⟨"u2", [], []⟩ : Craw.FolderRecord)) ∈
      (Craw.save_to_json Fixtures.stC9).2) := by
  constructor
  · exact ((c9_empty_folders_omitted Fixtures.stC9).1 "1"
      ⟨"u1", [⟨"a", "ua", "3k", "2020"⟩], []⟩).mpr ⟨by decide, by decide⟩
  · intro hmem
    have := ((c9_empty_folders_omitted Fixtures.stC9).1 "2"
      ⟨"u2", [], []⟩).mp hmem
    exact this.2 rfl

/-- C10: `save_to_json` and `generate_excel` never mutate the crawler's
inventory: both return the crawler state unchanged, so `file_structure`
after either call equals `file_structure` before it, including any folders
with zero files. -/
theorem c10_report_functions_no_mutation (st : Craw.CrawlState) :
    (Craw.save_to_json st).1 = st ∧ (Craw.generate_excel st).1 = st ∧
    (Craw.save_to_json st).1.file_structure = st.file_structure ∧
    (Craw.generate_excel st).1.file_structure = st.file_structure :=
  ⟨rfl, rfl, rfl, rfl⟩

/-- `parse_directory` on an already-visited URL returns no items, leaves
the state unchanged, and performs no fetch. -/
theorem parse_directory_visited (net : String → Craw.FetchOutcome)
    (uj : String → String → String) (md : Nat) :
    ∀ url depth st, url ∈ st.visited_folders →
      Craw.parse_directory net uj md url depth st = ([], st, false) := by
  intro url depth st h
  by_cases hlt : md < depth
  · simp [Craw.parse_directory, hlt]
  · simp [Craw.parse_directory, hlt, h]

/-- `crawl_folder` on an already-visited URL is a no-op on the state. -/
theorem crawl_folder_visited (net : String → Craw.FetchOutcome)
    (uj : String → String → String) (md : Nat) :
    ∀ url depth st, url ∈ st.visited_folders →
      Craw.crawl_folder net uj md url depth st = st := by
  intro url depth st h
  by_cases hlt : md < depth
  · rw [Craw.crawl_folder, if_pos hlt]
  · rw [Craw.crawl_folder, if_neg hlt]
    split
    · rfl
    · split
      · rfl
      · rw [parse_directory_visited net uj md url depth st h]
        simp

/-- If a string is not in a list, it is counted zero times. -/
theorem countStr_eq_zero_of_not_mem (u : String) :
    ∀ l : List String, u ∉ l → Craw.countStr u l = 0 := by
  intro l
  induction l with
  | nil => intro _; rfl
  | cons v rest ih =>
      intro h
      rw [Craw.countStr]
      have hv : ¬ v = u := fun hv => h (hv ▸ List.mem_cons_self v rest)
      rw [if_neg hv, ih (fun hm => h (List.mem_cons_of_mem v hm))]

/-- `parse_directory` preserves the at-most-one-fetch invariant. -/
theorem parse_directory_inv (net : String → Craw.FetchOutcome)
    (uj : String → String → String) (md : Nat) (url : String) (depth : Nat)
    (st : Craw.CrawlState) (h : Craw.FetchInv st) :
    Craw.FetchInv (Craw.parse_directory net uj md url depth st).2.1 := by
  by_cases hlt : md < depth
  · simpa [Craw.parse_directory, hlt] using h
  · by_cases hv : url ∈ st.visited_folders
    · simpa [Craw.parse_directory, hlt, hv] using h
    · have hcount : Craw.countStr url st.fetch_log = 0 :=
        countStr_eq_zero_of_not_mem url st.fetch_log
          (fun hm => hv (h.2 url hm))
      have hgoal : Craw.FetchInv
          { st with visited_folders := url :: st.visited_folders,
                    fetch_log := url :: st.fetch_log } := by
        constructor
        · intro u
          rw [Craw.countStr]
          by_cases hu : url = u
          · rw [if_pos hu, ← hu, hcount]
          · rw [if_neg hu]
            simpa using h.1 u
        · intro u hu
          rcases List.mem_cons.mp hu with heq | hmem
          · exact heq ▸ List.mem_cons_self url st.visited_folders
          · exact List.mem_cons_of_mem url (h.2 u hmem)
      cases hnet : net url with
      | exn => simpa [Craw.parse_directory, hlt, hv, hnet] using hgoal
      | ok links => simpa [Craw.parse_directory, hlt, hv, hnet] using hgoal

/-- The item loop preserves the invariant, given that one-deeper
`crawl_folder` calls do. -/
theorem crawl_items_inv_aux (net : String → Craw.FetchOutcome)
    (uj : String → String → String) (md : Nat) (fid : String) (depth : Nat)
    (IH : ∀ url st, Craw.FetchInv st →
      Craw.FetchInv (Craw.crawl_folder net uj md url (depth + 1) st)) :
    ∀ items st, Craw.FetchInv st →
      Craw.FetchInv (Craw.crawl_items net uj md fid depth items st) := by
  intro items
  induction items with
  | nil => intro st h; rw [Craw.crawl_items]; exact h
  | cons item rest ih =>
      intro st h
      cases item with
      | folder name url' parent =>
          rw [Craw.crawl_items]
          exact ih _ (IH _ _ h)
      | file name url' size date parent =>
          rw [Craw.crawl_items]
          exact ih _ h

/-- `crawl_folder` preserves the at-most-one-fetch invariant. -/
theorem crawl_folder_inv (net : String → Craw.FetchOutcome)
    (uj : String → String → String) (md : Nat) :
    ∀ k depth, md + 1 - depth ≤ k →
      ∀ url st, Craw.FetchInv st →
        Craw.FetchInv (Craw.crawl_folder net uj md url depth st) := by
  intro k
  induction k with
  | zero =>
      intro depth hk url st h
      have hlt : md < depth := by omega
      rw [Craw.crawl_folder, if_pos hlt]
      exact h
  | succ m ih =>
      intro depth hk url st h
      by_cases hlt : md < depth
      · rw [Craw.crawl_folder, if_pos hlt]; exact h
      · rw [Craw.crawl_folder, if_neg hlt]
        split
        · exact h
        · split
          · exact h
          · have hpres := parse_directory_inv net uj md url depth st h
            rcases hpd : Craw.parse_directory net uj md url depth st with
              ⟨items, st1, fetched⟩
            rw [hpd] at hpres
            dsimp only at hpres ⊢
            split
            · exact hpres
            · exact crawl_items_inv_aux net uj md (Craw.folderIdOf url) depth
                (fun url2 st2 h2 => ih (depth + 1) (by omega) url2 st2 h2)
                items _ hpres

/-- Any sequence of scheduled `crawl_folder` tasks preserves the
at-most-one-fetch invariant. -/
theorem runCrawl_inv (net : String → Craw.FetchOutcome)
    (uj : String → String → String) (md : Nat) :
    ∀ roots st, Craw.FetchInv st →
      Craw.FetchInv (Craw.runCrawl net uj md roots st) := by
  intro roots
  induction roots with
  | nil => intro st h; exact h
  | cons r rest ih =>
      intro st h
      exact ih _ (crawl_folder_inv net uj md (md + 1 - r.2) r.2 (by omega)
        r.1 st h)

/-- C1: for every URL at most one network fetch happens across a crawl
run: `parse_directory` on an already-visited URL returns the empty list
without fetching, re-invoking `crawl_folder` for an already-visited URL is
a no-op on the state, and over any schedule of crawl tasks started from
the initial state every URL appears at most once in the fetch log. -/
theorem c1_at_most_one_fetch_per_url (net : String → Craw.FetchOutcome)
    (uj : String → String → String) (max_depth : Nat) :
    (∀ url depth st, url ∈ st.visited_folders →
      Craw.parse_directory net uj max_depth url depth st = ([], st, false)) ∧
    (∀ url depth st, url ∈ st.visited_folders →
      Craw.crawl_folder net uj max_depth url depth st = st) ∧
    (∀ roots u, Craw.countStr u
      (Craw.runCrawl net uj max_depth roots Craw.initState).fetch_log ≤ 1) := by
  refine ⟨parse_directory_visited net uj max_depth,
          crawl_folder_visited net uj max_depth, ?_⟩
  intro roots u
  have hinit : Craw.FetchInv Craw.initState := by
    constructor
    · intro v; simp [Craw.initState, Craw.countStr]
    · intro v hv; exact absurd hv (List.not_mem_nil v)
  exact (runCrawl_inv net uj max_depth roots Craw.initState hinit).1 u

/-- C1 witness: on an already-visited URL both operations are no-ops, and
scheduling the same root twice still fetches it at most once. -/
theorem c1_at_most_one_fetch_per_url_witness :
    Craw.parse_directory Fixtures.netExn Fixtures.uj0 2 "u" 0 Fixtures.stVisited =
      ([], Fixtures.stVisited, false) ∧
    Craw.crawl_folder Fixtures.netExn Fixtures.uj0 2 "u" 0 Fixtures.stVisited =
      Fixtures.stVisited ∧
    Craw.countStr "http://x/7/" (Craw.runCrawl Fixtures.netPage42 Fixtures.uj0 2
      [("http://x/7/", 0), ("http://x/7/", 0)] Craw.initState).fetch_log ≤ 1 :=
  ⟨(c1_at_most_one_fetch_per_url Fixtures.netExn Fixtures.uj0 2).1 "u" 0
      Fixtures.stVisited (by decide),
   (c1_at_most_one_fetch_per_url Fixtures.netExn Fixtures.uj0 2).2.1 "u" 0
      Fixtures.stVisited (by decide),
   (c1_at_most_one_fetch_per_url Fixtures.netPage42 Fixtures.uj0 2).2.2
      [("http://x/7/", 0), ("http://x/7/", 0)] "http://x/7/"⟩

/-- C7: an exception during a single folder fetch is caught inside
`parse_directory`, which returns zero entries (as a total function it
never raises); the URL is marked visited first, so any later
`parse_directory` call for it does not fetch (no retry within the run);
and `crawl_folder` records nothing for that folder in `file_structure`. -/
theorem c7_fetch_exception_contained (net : String → Craw.FetchOutcome)
    (uj : String → String → String) (max_depth : Nat) (url : String)
    (depth : Nat) (st : Craw.CrawlState)
    (hnet : net url = Craw.FetchOutcome.exn)
    (hd : depth ≤ max_depth)
    (hnv : url ∉ st.visited_folders) :
    Craw.parse_directory net uj max_depth url depth st =
      ([], { st with visited_folders := url :: st.visited_folders,
                     fetch_log := url :: st.fetch_log }, true) ∧
    (Craw.crawl_folder net uj max_depth url depth st).file_structure =
      st.file_structure ∧
    (∀ d2 st2, url ∈ st2.visited_folders →
      Craw.parse_directory net uj max_depth url d2 st2 = ([], st2, false)) := by
  have hlt : ¬ (max_depth < depth) := Nat.not_lt.mpr hd
  have hpd : Craw.parse_directory net uj max_depth url depth st =
      ([], { st with visited_folders := url :: st.visited_folders,
                     fetch_log := url :: st.fetch_log }, true) := by
    simp [Craw.parse_directory, hlt, hnv, hnet]
  refine ⟨hpd, ?_, parse_directory_visited net uj max_depth url⟩
  rw [Craw.crawl_folder, if_neg hlt]
  split
  · rfl
  · split
    · rfl
    · rw [hpd]
      simp

/-- C7 witness: a raising fetch for `"u"` from the initial state yields no
entries, records nothing, and marks `"u"` visited. -/
theorem c7_fetch_exception_contained_witness :
    Craw.parse_directory Fixtures.netExn Fixtures.uj0 2 "u" 0 Craw.initState =
      ([], ⟨[], ["u"], ["u"]⟩, true) ∧
    (Craw.crawl_folder Fixtures.netExn Fixtures.uj0 2 "u" 0
      Craw.initState).file_structure = [] := by
  have h := c7_fetch_exception_contained Fixtures.netExn Fixtures.uj0 2 "u" 0
    Craw.initState rfl (by decide) (by decide)
  exact ⟨h.1, h.2.1⟩
